import Mathlib

/-!
# Verification of the wallpaper rendering core (`src-tauri/src/wallpaper_engine.rs`)

This file shallowly embeds the wallpaper compositing engine in Lean 4 and
proves (or refutes) the specification's claims about it.

Modelling conventions:
* Rust `f32` arithmetic on card geometry and colors is embedded as exact
  rational (`ℚ`) arithmetic.  All geometric quantities produced by the code
  (margins, paddings, heights, line counts) are small integers, for which the
  `f32` computation is exact, so this idealisation is faithful.
* Pixel channel values are embedded as rationals normalised to `[0, 1]`
  (tiny-skia performs its blending in normalised `f32`).
* The tiny-skia rasterizer (`fill_path` / `stroke_path`) and the PNG encoder
  (`encode_png`) are external library code; they enter the model as explicit
  function parameters (`rasterize`, `encode`).  The draw calls the engine
  issues are reified as a trace of `DrawOp` values.
* Rust `Result<T, String>` is `Except String T`; a reachable `unwrap()` panic
  is modelled by the dedicated `Outcome.panicked` constructor.
-/

/-! ## Data model and embedded operations -/

/-- `enum CardType { Memo, Task }`. -/
inductive CardType where
  | memo
  | task
deriving DecidableEq, Repr

/-- `struct WallpaperCard { title, content, card_type, is_pinned }`. -/
structure WallpaperCard where
  title : String
  content : String
  card_type : CardType
  is_pinned : Bool
deriving DecidableEq, Repr

/-- `enum CardPosition { BottomRight, BottomLeft, TopRight, TopLeft }`. -/
inductive CardPosition where
  | bottomRight
  | bottomLeft
  | topRight
  | topLeft
deriving DecidableEq, Repr

/-- `struct RenderOptions`.  `card_width : u32` is a natural number;
`card_opacity : f32` is embedded as a rational. -/
structure RenderOptions where
  cards : List WallpaperCard
  position : CardPosition
  card_width : ℕ
  card_opacity : ℚ
  blur_background : Bool
  is_dark_mode : Bool

/-- `impl Default for RenderOptions`. -/
def RenderOptions.default : RenderOptions :=
  { cards := []
    position := CardPosition.bottomRight
    card_width := 280
    card_opacity := 85 / 100
    blur_background := false
    is_dark_mode := true }

/-- `fn calculate_card_height(card, _width, padding) -> f32`.
`card.content.len()` is the UTF-8 byte length of the content string;
`(len as f32 / 30.0).ceil().max(1.0)` is the rational ceiling of `len / 30`,
clamped below by `1`.  The `_width` parameter is unused, as in the source. -/
def calculate_card_height (card : WallpaperCard) (_width : ℚ) (padding : ℚ) : ℚ :=
  let title_height : ℚ := if card.title.isEmpty then 0 else 24
  let content_lines : ℚ := max ((⌈(card.content.utf8ByteSize : ℚ) / 30⌉ : ℤ) : ℚ) 1
  let content_height : ℚ := content_lines * 20
  title_height + content_height + padding * 2

/-- The card-height formula exactly as the spec words it:
`height = title_band (24px if title non-empty else 0) + content_band + 2×padding(16px)`
with `content_band = max(ceil(content_length / 30), 1) × 20px`, in natural
numbers. -/
def spec_card_height (card : WallpaperCard) : ℕ :=
  let title_band : ℕ := if card.title.isEmpty then 0 else 24
  let content_band : ℕ := max ((card.content.utf8ByteSize + 29) / 30) 1 * 20
  title_band + content_band + 2 * 16

/-- `tiny_skia::Color` as produced by `Color::from_rgba8`: four 8-bit
channels. -/
structure Color where
  r : ℕ
  g : ℕ
  b : ℕ
  a : ℕ
deriving DecidableEq, Repr

/-- `Color::from_rgba8(r, g, b, a)`. -/
def Color.from_rgba8 (r g b a : ℕ) : Color := ⟨r, g, b, a⟩

/-- Rust's saturating `f32 as u8` cast: truncate toward zero, clamp to
`[0, 255]`. -/
def f32_as_u8 (q : ℚ) : ℕ := (min 255 ⌊q⌋).toNat

/-- One drawing call issued against the pixmap.  `draw_rounded_rect`,
`draw_rounded_rect_stroke` and `draw_circle` each build a path and hand it to
the tiny-skia rasterizer; the trace records the call together with all of its
geometric and color arguments. -/
inductive DrawOp where
  | fillRoundedRect (x y w h radius : ℚ) (color : Color)
  | strokeRoundedRect (x y w h radius : ℚ) (color : Color) (strokeWidth : ℚ)
  | fillCircle (cx cy radius : ℚ) (color : Color)
deriving DecidableEq, Repr

/-- The frosted-glass fill color of a card background. -/
def card_fill_color (options : RenderOptions) : Color :=
  if options.is_dark_mode then
    Color.from_rgba8 255 255 255 (f32_as_u8 (options.card_opacity * 40))
  else
    Color.from_rgba8 0 0 0 (f32_as_u8 (options.card_opacity * 30))

/-- The card border color. -/
def card_border_color (options : RenderOptions) : Color :=
  if options.is_dark_mode then
    Color.from_rgba8 255 255 255 50
  else
    Color.from_rgba8 0 0 0 20

/-- The pin-indicator color: amber for Memo, blue for Task. -/
def pin_color (t : CardType) : Color :=
  match t with
  | CardType.memo => Color.from_rgba8 251 191 36 255
  | CardType.task => Color.from_rgba8 96 165 250 255

/-- The `(start_x, start_y)` pair computed from `options.position` at the top
of `render_cards` (`card_width` is `options.card_width as f32`). -/
def start_pos (position : CardPosition) (card_width width height : ℚ) : ℚ × ℚ :=
  match position with
  | CardPosition.bottomRight => (width - card_width - 32, height - 32)
  | CardPosition.bottomLeft => (32, height - 32)
  | CardPosition.topRight => (width - card_width - 32, 32)
  | CardPosition.topLeft => (32, 32)

/-- The per-card placement of the `render_cards` loop: each rendered card is
assigned a `(card, card_y, card_height)` triple, threading `current_y`
exactly as the loop does (`current_y -= h + margin; card_y = current_y +
margin` for bottom anchors, `card_y = current_y; current_y += h + margin`
for top anchors; the margin is 12). -/
def layout_cards (position : CardPosition) (card_width : ℚ) :
    List WallpaperCard → ℚ → List (WallpaperCard × ℚ × ℚ)
  | [], _ => []
  | card :: rest, current_y =>
    let card_height := calculate_card_height card card_width 16
    match position with
    | CardPosition.bottomRight | CardPosition.bottomLeft =>
      (card, (current_y - (card_height + 12)) + 12, card_height) ::
        layout_cards position card_width rest (current_y - (card_height + 12))
    | _ =>
      (card, current_y, card_height) ::
        layout_cards position card_width rest (current_y + card_height + 12)

/-- The drawing calls issued for one card: background fill
(`draw_rounded_rect`, corner radius 16), border stroke
(`draw_rounded_rect_stroke`, width 1), and — only when the card is pinned —
the pin circle (`draw_circle`) at `(start_x + card_width - 12, card_y + 12)`
with radius 6. -/
def card_ops (card_width : ℚ) (fill_color border_color : Color)
    (start_x card_y card_height : ℚ) (card : WallpaperCard) : List DrawOp :=
  [DrawOp.fillRoundedRect start_x card_y card_width card_height 16 fill_color,
   DrawOp.strokeRoundedRect start_x card_y card_width card_height 16 border_color 1] ++
  (if card.is_pinned then
    [DrawOp.fillCircle (start_x + card_width - 12) (card_y + 12) 6
       (pin_color card.card_type)]
   else [])

/-- `fn render_cards(pixmap, options, width, height)`: computes the start
position, iterates over `options.cards.iter().take(4)` threading `current_y`,
and issues each card's draw calls in order. -/
def render_cards (options : RenderOptions) (width height : ℚ) : List DrawOp :=
  let s := start_pos options.position (options.card_width : ℚ) width height
  (layout_cards options.position (options.card_width : ℚ) (options.cards.take 4) s.2).flatMap
    (fun e => card_ops (options.card_width : ℚ) (card_fill_color options)
      (card_border_color options) s.1 e.2.1 e.2.2 e.1)

/-- The stacking discipline claimed for bottom anchors, packaged as a
predicate on placements: the first (lowest) card's bottom edge sits at
`bottom`, and each later card's bottom edge is exactly 12px above the
previous card's top edge, hence each later card's top edge is strictly
higher (smaller `y`). -/
def bottom_stack_ok (l : List (WallpaperCard × ℚ × ℚ)) (bottom : ℚ) : Prop :=
  (∀ e ∈ l.head?, e.2.1 + e.2.2 = bottom) ∧
  l.Chain' (fun a b => b.2.1 + b.2.2 + 12 = a.2.1 ∧ b.2.1 < a.2.1)

/-- Extract a rounded-rectangle fill from a draw call. -/
def fill_of : DrawOp → Option (ℚ × ℚ × ℚ × ℚ × ℚ × Color)
  | DrawOp.fillRoundedRect x y w h radius color => some (x, y, w, h, radius, color)
  | DrawOp.strokeRoundedRect _ _ _ _ _ _ _ => none
  | DrawOp.fillCircle _ _ _ _ => none

/-- Extract a circle fill from a draw call. -/
def circle_of : DrawOp → Option (ℚ × ℚ × ℚ × Color)
  | DrawOp.fillCircle cx cy radius color => some (cx, cy, radius, color)
  | DrawOp.fillRoundedRect _ _ _ _ _ _ => none
  | DrawOp.strokeRoundedRect _ _ _ _ _ _ _ => none

/-- A straight (non-premultiplied) RGBA pixel with 8-bit channels, as produced
by `image::DynamicImage::to_rgba8`. -/
structure RGBA8 where
  r : ℕ
  g : ℕ
  b : ℕ
  a : ℕ
deriving DecidableEq, Repr

/-- A decoded background image: dimensions plus its row-major RGBA8 pixels.
`to_rgba8` always yields exactly `width * height` pixels. -/
structure Image where
  width : ℕ
  height : ℕ
  pixels : List RGBA8
  hsize : pixels.length = width * height

/-- A premultiplied pixel with channels normalised to `[0, 1]` (tiny-skia
blends in normalised `f32`; we use exact rationals). -/
structure QColor where
  r : ℚ
  g : ℚ
  b : ℚ
  a : ℚ
deriving DecidableEq, Repr

/-- `tiny_skia::Pixmap`: dimensions plus row-major premultiplied pixels. -/
structure Pixmap where
  width : ℕ
  height : ℕ
  pixels : List QColor
deriving DecidableEq, Repr

/-- `Pixmap::new(width, height)`: fails (returns `None`) on a zero-sized
canvas, otherwise allocates a transparent-black buffer of `width * height`
pixels. -/
def Pixmap.new (width height : ℕ) : Option Pixmap :=
  if width = 0 ∨ height = 0 then none
  else some ⟨width, height, List.replicate (width * height) ⟨0, 0, 0, 0⟩⟩

/-- `tiny_skia::PremultipliedColorU8::from_rgba(r, g, b, a)`: accepts the
four channel bytes as an already-premultiplied pixel, which requires every
color channel to be at most the alpha channel; otherwise it returns `None`.
On success the stored (normalised) pixel keeps the given channel values
unchanged. -/
def premultiplied_from_rgba (r g b a : ℕ) : Option QColor :=
  if r ≤ a ∧ g ≤ a ∧ b ≤ a then
    some ⟨(r : ℚ) / 255, (g : ℚ) / 255, (b : ℚ) / 255, (a : ℚ) / 255⟩
  else none

/-- The per-pixel copy loop of `render_wallpaper`
(`pixmap.pixels_mut()[...] = PremultipliedColorU8::from_rgba(...).unwrap()`):
`none` models the `unwrap()` panic on the first pixel whose color channels
exceed its alpha. -/
def copy_pixels : List RGBA8 → Option (List QColor)
  | [] => some []
  | p :: rest =>
    match premultiplied_from_rgba p.r p.g p.b p.a with
    | none => none
    | some c => (copy_pixels rest).map (fun cs => c :: cs)

/-- Source-over compositing of a premultiplied source pixel onto a
premultiplied destination pixel: `out = src + dst * (1 - src_alpha)`. -/
def over_blend (src dst : QColor) : QColor :=
  ⟨src.r + dst.r * (1 - src.a),
   src.g + dst.g * (1 - src.a),
   src.b + dst.b * (1 - src.a),
   src.a + dst.a * (1 - src.a)⟩

/-- The overlay paint: `Color::from_rgba8(0, 0, 0, 50)` premultiplied and
normalised — black with alpha `50/255`. -/
def overlay_src : QColor := ⟨0, 0, 0, 50 / 255⟩

/-- An axis-aligned rectangle, as built by `Rect::from_xywh`. -/
structure XYWHRect where
  x : ℚ
  y : ℚ
  w : ℚ
  h : ℚ
deriving DecidableEq, Repr

/-- The overlay rectangle `Rect::from_xywh(0.0, 0.0, width, height)`. -/
def overlay_rect (width height : ℕ) : XYWHRect := ⟨0, 0, (width : ℚ), (height : ℚ)⟩

/-- Whether the pixel at flat index `i` of a `width`-pixel-wide buffer lies in
a rectangle: its integer coordinates are `(i % width, i / width)`. -/
def pixel_in_rect (i width : ℕ) (r : XYWHRect) : Bool :=
  decide (r.x ≤ ((i % width : ℕ) : ℚ) ∧ ((i % width : ℕ) : ℚ) < r.x + r.w ∧
          r.y ≤ ((i / width : ℕ) : ℚ) ∧ ((i / width : ℕ) : ℚ) < r.y + r.h)

/-- `Pixmap::fill_rect` with an opaque-paint source-over fill: every pixel
inside the rectangle is blended with the source color, every other pixel is
left untouched. -/
def Pixmap.fill_rect (pm : Pixmap) (r : XYWHRect) (src : QColor) : Pixmap :=
  ⟨pm.width, pm.height,
   pm.pixels.enum.map (fun e =>
     if pixel_in_rect e.1 pm.width r then over_blend src e.2 else e.2)⟩

/-- The result of one render call.  `err` is a `Result::Err` value propagated
to the caller; `panicked` marks the reachable `unwrap()` panic in the pixel
copy loop. -/
inductive Outcome (α : Type) where
  | ok (val : α)
  | err (msg : String)
  | panicked
deriving DecidableEq, Repr

/-- The canvas-building steps of `render_wallpaper` (the spec's
`build_canvas`): allocate a pixmap of the background's dimensions, copy every
background pixel into it, then apply the darkening overlay over the full
canvas — unconditionally, with no reference to any render option. -/
def build_canvas (background : Image) : Outcome Pixmap :=
  match Pixmap.new background.width background.height with
  | none => Outcome.err "Failed to create pixmap"
  | some pm =>
    match copy_pixels background.pixels with
    | none => Outcome.panicked
    | some px =>
      Outcome.ok ((Pixmap.mk pm.width pm.height px).fill_rect
        (overlay_rect background.width background.height) overlay_src)

/-- `fn render_wallpaper(background_path, options) -> Result<Vec<u8>, String>`.
`decode` is the result of `image::open(background_path)`; `rasterize` is the
tiny-skia path rasterizer applying one draw call to the pixmap; `encode` is
`Pixmap::encode_png`.  The pipeline: decode, build the canvas, render the
cards when the list is non-empty, encode. -/
def render_wallpaper (decode : Except String Image) (options : RenderOptions)
    (rasterize : DrawOp → Pixmap → Pixmap)
    (encode : Pixmap → Except String (List ℕ)) : Outcome (List ℕ) :=
  match decode with
  | Except.error e => Outcome.err ("Failed to load background: " ++ e)
  | Except.ok background =>
    match build_canvas background with
    | Outcome.err m => Outcome.err m
    | Outcome.panicked => Outcome.panicked
    | Outcome.ok pixmap =>
      let pixmap :=
        if options.cards.isEmpty then pixmap
        else
          (render_cards options (background.width : ℚ) (background.height : ℚ)).foldl
            (fun pm op => rasterize op pm) pixmap
      match encode pixmap with
      | Except.ok bytes => Outcome.ok bytes
      | Except.error e => Outcome.err ("Failed to encode PNG: " ++ e)

/-- The Canvas-Builder-only pipeline: decode, build the canvas, encode,
with no card compositing step. -/
def canvas_only (decode : Except String Image)
    (encode : Pixmap → Except String (List ℕ)) : Outcome (List ℕ) :=
  match decode with
  | Except.error e => Outcome.err ("Failed to load background: " ++ e)
  | Except.ok background =>
    match build_canvas background with
    | Outcome.err m => Outcome.err m
    | Outcome.panicked => Outcome.panicked
    | Outcome.ok pixmap =>
      match encode pixmap with
      | Except.ok bytes => Outcome.ok bytes
      | Except.error e => Outcome.err ("Failed to encode PNG: " ++ e)

/-- A 1×1 decoded background whose only pixel is transparent black. -/
def black_image : Image := ⟨1, 1, [⟨0, 0, 0, 0⟩], rfl⟩

/-- A rasterizer stub for witnesses. -/
def id_rasterize : DrawOp → Pixmap → Pixmap := fun _ pm => pm

/-- An encoder stub for witnesses. -/
def ok_encode : Pixmap → Except String (List ℕ) := fun _ => Except.ok []

/-- A 1×1 decoded background whose only pixel is transparent white
(255, 255, 255, 0) — a perfectly ordinary pixel in a PNG with an alpha
channel. -/
def transparent_white_image : Image := ⟨1, 1, [⟨255, 255, 255, 0⟩], rfl⟩

/-- The stored pixel a successful `from_rgba` produces: the channel values
verbatim, normalised. -/
def stored_pixel (p : RGBA8) : QColor :=
  ⟨(p.r : ℚ) / 255, (p.g : ℚ) / 255, (p.b : ℚ) / 255, (p.a : ℚ) / 255⟩

/-- A 1×1 decoded background whose only pixel is opaque white. -/
def white_image : Image := ⟨1, 1, [⟨255, 255, 255, 255⟩], rfl⟩

/-- A decoded background with a zero dimension, on which pixmap allocation
fails. -/
def zero_image : Image := ⟨0, 1, [], rfl⟩

/-! ## Theorems -/

/-- Rational ceiling of `n / 30` agrees with the rounded-up natural division. -/
lemma ceil_div_thirty (n : ℕ) :
    (((⌈(n : ℚ) / 30⌉ : ℤ)) : ℚ) = (((n + 29) / 30 : ℕ) : ℚ) := by
  have h30 : (0 : ℚ) < 30 := by norm_num
  have hz : (⌈(n : ℚ) / 30⌉ : ℤ) = (((n + 29) / 30 : ℕ) : ℤ) := by
    rw [Int.ceil_eq_iff]
    constructor
    · have hlt : ((((n + 29) / 30 : ℕ) : ℤ) : ℚ) * 30 < (n : ℚ) + 30 := by
        exact_mod_cast (by omega : ((n + 29) / 30) * 30 < n + 30)
      rw [lt_div_iff₀ h30]
      linarith
    · have hle : (n : ℚ) ≤ ((((n + 29) / 30 : ℕ) : ℤ) : ℚ) * 30 := by
        exact_mod_cast (by omega : n ≤ ((n + 29) / 30) * 30)
      rw [div_le_iff₀ h30]
      exact hle
  rw [hz]
  norm_cast

/-- C1: for every card the computed height is `title_band + content_band + 2·16`
with `title_band = 24` iff the title is non-empty and
`content_band = max(ceil(len/30), 1)·20`; zero-length content still reserves
exactly one 20px content line. -/
theorem wallpaper_C1_card_height :
    (∀ (card : WallpaperCard) (w : ℚ),
      calculate_card_height card w 16 = (spec_card_height card : ℚ)) ∧
    (∀ (card : WallpaperCard) (w : ℚ), card.content = "" →
      calculate_card_height card w 16 =
        (if card.title.isEmpty then 0 else 24) + 1 * 20 + 2 * 16) := by
  have key : ∀ (card : WallpaperCard) (w : ℚ),
      calculate_card_height card w 16 = (spec_card_height card : ℚ) := by
    intro card w
    dsimp only [calculate_card_height, spec_card_height]
    rw [ceil_div_thirty]
    rw [Nat.cast_add, Nat.cast_add, Nat.cast_mul, Nat.cast_max]
    split_ifs with h
    · push_cast
      ring
    · push_cast
      ring
  refine ⟨key, ?_⟩
  intro card w hc
  rw [key card w]
  dsimp only [spec_card_height]
  rw [hc, show ("".utf8ByteSize) = 0 from rfl]
  split_ifs with h <;> norm_num

/-- Witness for C1 at a concrete card with empty content. -/
theorem wallpaper_C1_card_height_witness :
    calculate_card_height ⟨"Note", "", .memo, false⟩ 280 16 =
      (spec_card_height ⟨"Note", "", .memo, false⟩ : ℚ) ∧
    (⟨"Note", "", .memo, false⟩ : WallpaperCard).content = "" ∧
    calculate_card_height ⟨"Note", "", .memo, false⟩ 280 16 =
      (if (⟨"Note", "", .memo, false⟩ : WallpaperCard).title.isEmpty then 0 else 24)
        + 1 * 20 + 2 * 16 :=
  ⟨wallpaper_C1_card_height.1 _ 280, rfl,
   wallpaper_C1_card_height.2 ⟨"Note", "", .memo, false⟩ 280 rfl⟩

/-- Every card height is at least 52 = 20 (one content line) + 32 (padding). -/
lemma card_height_ge (card : WallpaperCard) (w : ℚ) :
    52 ≤ calculate_card_height card w 16 := by
  dsimp only [calculate_card_height]
  have h1 : (1 : ℚ) ≤ max ((⌈(card.content.utf8ByteSize : ℚ) / 30⌉ : ℤ) : ℚ) 1 :=
    le_max_right _ _
  have h0 : (0 : ℚ) ≤ if card.title.isEmpty then 0 else 24 := by
    split_ifs <;> norm_num
  nlinarith

/-- `layout_cards` on the empty list. -/
lemma layout_cards_nil (position : CardPosition) (card_width current_y : ℚ) :
    layout_cards position card_width [] current_y = [] := rfl

/-- Unfolding `layout_cards` one step for a bottom anchor. -/
lemma layout_cards_cons_bottom (position : CardPosition) (card_width : ℚ)
    (hpos : position = CardPosition.bottomRight ∨
            position = CardPosition.bottomLeft)
    (card : WallpaperCard) (rest : List WallpaperCard) (current_y : ℚ) :
    layout_cards position card_width (card :: rest) current_y =
      (card,
        (current_y - (calculate_card_height card card_width 16 + 12)) + 12,
        calculate_card_height card card_width 16) ::
      layout_cards position card_width rest
        (current_y - (calculate_card_height card card_width 16 + 12)) := by
  rcases hpos with h | h <;> subst h <;> rfl

/-- For bottom anchors, `layout_cards` started at `current_y` places the first
card's bottom edge at `current_y` and stacks strictly upward. -/
lemma layout_cards_bottom_chain (position : CardPosition) (card_width : ℚ)
    (hpos : position = CardPosition.bottomRight ∨
            position = CardPosition.bottomLeft) :
    ∀ (cards : List WallpaperCard) (current_y : ℚ),
      bottom_stack_ok (layout_cards position card_width cards current_y) current_y := by
  intro cards
  induction cards with
  | nil =>
    intro current_y
    exact ⟨by simp [layout_cards_nil], by simp [layout_cards_nil]⟩
  | cons card rest ih =>
    intro current_y
    rw [layout_cards_cons_bottom position card_width hpos]
    constructor
    · intro e he
      simp only [List.head?_cons, Option.mem_def, Option.some.injEq] at he
      subst he
      dsimp only
      ring
    · have ih2 := ih (current_y - (calculate_card_height card card_width 16 + 12))
      refine List.chain'_cons'.2 ⟨?_, ih2.2⟩
      intro e he
      have h2 := ih2.1 e he
      rcases rest with - | ⟨card2, rest2⟩
      · simp [layout_cards_nil] at he
      · rw [layout_cards_cons_bottom position card_width hpos] at he
        simp only [List.head?_cons, Option.mem_def, Option.some.injEq] at he
        have hh2 := card_height_ge card2 card_width
        subst he
        dsimp only at h2 ⊢
        constructor
        · linarith
        · linarith

/-- C2: for a bottom anchor the first card in input order is lowest, with its
bottom edge at the 32px bottom margin (`height - 32`), and each subsequent
card sits strictly above the previous one separated by the 12px inter-card
gap; in particular consecutive top-edge `y` coordinates are strictly
decreasing. -/
theorem wallpaper_C2_bottom_stacking (options : RenderOptions) (width height : ℚ)
    (hpos : options.position = CardPosition.bottomRight ∨
            options.position = CardPosition.bottomLeft) :
    bottom_stack_ok
      (layout_cards options.position (options.card_width : ℚ)
        (options.cards.take 4)
        (start_pos options.position (options.card_width : ℚ) width height).2)
      (height - 32) := by
  have hstart : (start_pos options.position (options.card_width : ℚ) width height).2 =
      height - 32 := by
    rcases hpos with h | h <;> rw [h] <;> rfl
  rw [hstart]
  exact layout_cards_bottom_chain options.position (options.card_width : ℚ) hpos
    (options.cards.take 4) (height - 32)

/-- Witness for C2: a `BottomRight` request with three cards on an 800×600
canvas. -/
theorem wallpaper_C2_bottom_stacking_witness :
    bottom_stack_ok
      (layout_cards
        (RenderOptions.mk
          [⟨"a", "x", CardType.memo, false⟩, ⟨"b", "y", CardType.task, true⟩,
           ⟨"", "z", CardType.memo, false⟩]
          CardPosition.bottomRight 280 (85 / 100) false true).position
        ((RenderOptions.mk
          [⟨"a", "x", CardType.memo, false⟩, ⟨"b", "y", CardType.task, true⟩,
           ⟨"", "z", CardType.memo, false⟩]
          CardPosition.bottomRight 280 (85 / 100) false true).card_width : ℚ)
        ((RenderOptions.mk
          [⟨"a", "x", CardType.memo, false⟩, ⟨"b", "y", CardType.task, true⟩,
           ⟨"", "z", CardType.memo, false⟩]
          CardPosition.bottomRight 280 (85 / 100) false true).cards.take 4)
        (start_pos
          (RenderOptions.mk
            [⟨"a", "x", CardType.memo, false⟩, ⟨"b", "y", CardType.task, true⟩,
             ⟨"", "z", CardType.memo, false⟩]
            CardPosition.bottomRight 280 (85 / 100) false true).position
          ((RenderOptions.mk
            [⟨"a", "x", CardType.memo, false⟩, ⟨"b", "y", CardType.task, true⟩,
             ⟨"", "z", CardType.memo, false⟩]
            CardPosition.bottomRight 280 (85 / 100) false true).card_width : ℚ)
          800 600).2)
      (600 - 32) :=
  wallpaper_C2_bottom_stacking _ 800 600 (Or.inl rfl)

/-- Each card's draw calls contain exactly one rounded-rectangle fill: its
background panel. -/
lemma card_ops_fills (card_width : ℚ) (fc bc : Color) (sx y h : ℚ)
    (card : WallpaperCard) :
    (card_ops card_width fc bc sx y h card).filterMap fill_of =
      [(sx, y, card_width, h, 16, fc)] := by
  cases hp : card.is_pinned <;>
    simp [card_ops, fill_of, hp, List.filterMap_cons]

/-- Each card's draw calls contain a circle exactly when the card is pinned,
and then it is the radius-6 pin circle in the card kind's pin color. -/
lemma card_ops_circles (card_width : ℚ) (fc bc : Color) (sx y h : ℚ)
    (card : WallpaperCard) :
    (card_ops card_width fc bc sx y h card).filterMap circle_of =
      if card.is_pinned then
        [(sx + card_width - 12, y + 12, 6, pin_color card.card_type)]
      else [] := by
  cases hp : card.is_pinned <;>
    simp [card_ops, circle_of, hp, List.filterMap_cons]

/-- Unfolding `layout_cards` one step for a top anchor. -/
lemma layout_cards_cons_top (position : CardPosition) (card_width : ℚ)
    (hpos : position = CardPosition.topRight ∨ position = CardPosition.topLeft)
    (card : WallpaperCard) (rest : List WallpaperCard) (current_y : ℚ) :
    layout_cards position card_width (card :: rest) current_y =
      (card, current_y, calculate_card_height card card_width 16) ::
      layout_cards position card_width rest
        (current_y + calculate_card_height card card_width 16 + 12) := by
  rcases hpos with h | h <;> subst h <;> rfl

/-- `layout_cards` assigns a placement to every card it is given. -/
lemma layout_cards_length (position : CardPosition) (card_width : ℚ) :
    ∀ (cards : List WallpaperCard) (current_y : ℚ),
      (layout_cards position card_width cards current_y).length = cards.length := by
  intro cards
  induction cards with
  | nil => intro current_y; rfl
  | cons card rest ih =>
    intro current_y
    cases position with
    | bottomRight =>
      rw [layout_cards_cons_bottom _ card_width (Or.inl rfl)]
      simp [ih]
    | bottomLeft =>
      rw [layout_cards_cons_bottom _ card_width (Or.inr rfl)]
      simp [ih]
    | topRight =>
      rw [layout_cards_cons_top _ card_width (Or.inl rfl)]
      simp [ih]
    | topLeft =>
      rw [layout_cards_cons_top _ card_width (Or.inr rfl)]
      simp [ih]

/-- Filtering a trace assembled card-by-card filters each card's calls. -/
lemma filterMap_flatMap {α β γ : Type} (l : List α) (g : α → List β)
    (p : β → Option γ) :
    (l.flatMap g).filterMap p = l.flatMap (fun e => (g e).filterMap p) := by
  induction l with
  | nil => rfl
  | cons e rest ih => simp [List.flatMap_cons, List.filterMap_append, ih]

/-- The rounded-rectangle fills of a render, in draw order: one per placed
card, at the card's layout box, in the frosted-glass fill color. -/
lemma render_cards_fills (options : RenderOptions) (width height : ℚ) :
    (render_cards options width height).filterMap fill_of =
      (layout_cards options.position (options.card_width : ℚ)
        (options.cards.take 4)
        (start_pos options.position (options.card_width : ℚ) width height).2).map
        (fun e => ((start_pos options.position (options.card_width : ℚ) width height).1,
          e.2.1, (options.card_width : ℚ), e.2.2, 16, card_fill_color options)) := by
  dsimp only [render_cards]
  rw [filterMap_flatMap]
  simp only [card_ops_fills]
  generalize (layout_cards options.position (options.card_width : ℚ)
    (options.cards.take 4)
    (start_pos options.position (options.card_width : ℚ) width height).2) = l
  induction l with
  | nil => rfl
  | cons e rest ih => simp [List.flatMap_cons, ih]

/-- Truncating the card list to its first four entries does not change the
issued draw calls: `render_cards` never looks past the fourth card. -/
lemma render_cards_take4 (options : RenderOptions) (width height : ℚ) :
    render_cards { options with cards := options.cards.take 4 } width height =
      render_cards options width height := by
  dsimp only [render_cards]
  simp only [List.take_take, Nat.min_self]
  rfl

/-- The circle fills of a render, in draw order: exactly one radius-6 circle
per *pinned* placed card, at the card's top-right corner, in the kind's pin
color. -/
lemma render_cards_circles (options : RenderOptions) (width height : ℚ) :
    (render_cards options width height).filterMap circle_of =
      ((layout_cards options.position (options.card_width : ℚ)
        (options.cards.take 4)
        (start_pos options.position (options.card_width : ℚ) width height).2).filter
          (fun e => e.1.is_pinned)).map
        (fun e => ((start_pos options.position (options.card_width : ℚ) width height).1
            + (options.card_width : ℚ) - 12,
          e.2.1 + 12, 6, pin_color e.1.card_type)) := by
  dsimp only [render_cards]
  rw [filterMap_flatMap]
  simp only [card_ops_circles]
  generalize (layout_cards options.position (options.card_width : ℚ)
    (options.cards.take 4)
    (start_pos options.position (options.card_width : ℚ) width height).2) = l
  induction l with
  | nil => rfl
  | cons e rest ih =>
    rw [List.flatMap_cons, List.filter_cons, ih]
    cases hp : e.1.is_pinned <;> simp [hp]

/-- C7: among a rendered card's draw calls there is a pin circle (radius 6,
near the top-right corner) precisely when the card is pinned, colored
RGBA(251,191,36,255) for Memo cards and RGBA(96,165,250,255) for Task
cards; unpinned cards contribute no circle. -/
theorem wallpaper_C7_pin_indicator (options : RenderOptions) (width height : ℚ) :
    (render_cards options width height).filterMap circle_of =
      ((layout_cards options.position (options.card_width : ℚ)
        (options.cards.take 4)
        (start_pos options.position (options.card_width : ℚ) width height).2).filter
          (fun e => e.1.is_pinned)).map
        (fun e => ((start_pos options.position (options.card_width : ℚ) width height).1
            + (options.card_width : ℚ) - 12,
          e.2.1 + 12, 6, pin_color e.1.card_type)) ∧
    pin_color CardType.memo = Color.from_rgba8 251 191 36 255 ∧
    pin_color CardType.task = Color.from_rgba8 96 165 250 255 :=
  ⟨render_cards_circles options width height, rfl, rfl⟩

/-- With no cards to draw, the compositor stage is skipped and the render
equals the Canvas-Builder-only pipeline. -/
lemma render_wallpaper_no_cards (decode : Except String Image)
    (options : RenderOptions) (rasterize : DrawOp → Pixmap → Pixmap)
    (encode : Pixmap → Except String (List ℕ)) (h : options.cards = []) :
    render_wallpaper decode options rasterize encode = canvas_only decode encode := by
  cases decode with
  | error e => rfl
  | ok background =>
    dsimp only [render_wallpaper, canvas_only]
    cases build_canvas background with
    | ok pm =>
      rw [h]
      rfl
    | err m => rfl
    | panicked => rfl

/-- C8: for a request with an empty card list the output is byte-for-byte the
Canvas-Builder-only output: the compositor draws nothing beyond the overlay. -/
theorem wallpaper_C8_empty_cards (decode : Except String Image)
    (options : RenderOptions) (rasterize : DrawOp → Pixmap → Pixmap)
    (encode : Pixmap → Except String (List ℕ)) (h : options.cards = []) :
    render_wallpaper decode options rasterize encode = canvas_only decode encode :=
  render_wallpaper_no_cards decode options rasterize encode h

/-- Witness for C8 at a concrete background, request and encoder. -/
theorem wallpaper_C8_empty_cards_witness :
    render_wallpaper (Except.ok black_image) RenderOptions.default id_rasterize ok_encode =
      canvas_only (Except.ok black_image) ok_encode :=
  wallpaper_C8_empty_cards (Except.ok black_image) RenderOptions.default
    id_rasterize ok_encode rfl

/-- C9: `blur_background` is a no-op — two render requests differing only in
the flag produce identical output for every background, rasterizer and
encoder. -/
theorem wallpaper_C9_blur_noop (decode : Except String Image)
    (options : RenderOptions) (b : Bool) (rasterize : DrawOp → Pixmap → Pixmap)
    (encode : Pixmap → Except String (List ℕ)) :
    render_wallpaper decode { options with blur_background := b } rasterize encode =
      render_wallpaper decode options rasterize encode := rfl

/-- C4 (refuted): on a background containing a pixel whose color channels
exceed its alpha, `PremultipliedColorU8::from_rgba` returns `None` and the
`unwrap()` in the copy loop panics, for every render request. -/
theorem wallpaper_C4_copy_panics (options : RenderOptions)
    (rasterize : DrawOp → Pixmap → Pixmap)
    (encode : Pixmap → Except String (List ℕ)) :
    premultiplied_from_rgba 255 255 255 0 = none ∧
    render_wallpaper (Except.ok transparent_white_image) options rasterize encode =
      Outcome.panicked :=
  ⟨rfl, rfl⟩

/-- On success `from_rgba` keeps the channel values verbatim. -/
lemma premultiplied_from_rgba_some (p : RGBA8) (c : QColor)
    (h : premultiplied_from_rgba p.r p.g p.b p.a = some c) : c = stored_pixel p := by
  dsimp only [premultiplied_from_rgba] at h
  split_ifs at h with hc
  simp only [Option.some.injEq] at h
  rw [← h]
  rfl

/-- A successful copy stores every background pixel verbatim, in order. -/
lemma copy_pixels_some :
    ∀ (l : List RGBA8) (px : List QColor), copy_pixels l = some px →
      px = l.map stored_pixel := by
  intro l
  induction l with
  | nil =>
    intro px h
    dsimp only [copy_pixels] at h
    simpa using h.symm
  | cons p rest ih =>
    intro px h
    dsimp only [copy_pixels] at h
    cases hc : premultiplied_from_rgba p.r p.g p.b p.a with
    | none => rw [hc] at h; cases h
    | some c =>
      rw [hc] at h
      cases hr : copy_pixels rest with
      | none => rw [hr] at h; cases h
      | some cs =>
        rw [hr] at h
        have h2 : some (c :: cs) = some px := h
        injection h2 with h3
        rw [← h3, List.map_cons, ← ih cs hr, premultiplied_from_rgba_some p c hc]

/-- The overlay rectangle `(0, 0, width, height)` contains every pixel of a
`width × height` buffer: the fill is full-canvas. -/
lemma pixel_in_overlay_rect (width height i : ℕ) (hi : i < width * height) :
    pixel_in_rect i width (overlay_rect width height) = true := by
  have hw : 0 < width := by
    rcases Nat.eq_zero_or_pos width with h | h
    · subst h; omega
    · exact h
  have hx : i % width < width := Nat.mod_lt _ hw
  have hy : i / width < height := Nat.div_lt_of_lt_mul (by omega)
  dsimp only [pixel_in_rect, overlay_rect]
  rw [decide_eq_true_eq]
  refine ⟨by positivity, ?_, by positivity, ?_⟩
  · rw [zero_add]; exact_mod_cast hx
  · rw [zero_add]; exact_mod_cast hy

/-- Mapping an index-guarded function over an enumerated list applies the
function everywhere once the guard holds at every index. -/
lemma map_enumFrom_ite {β : Type} (f : β → β) (cond : ℕ → Bool) :
    ∀ (l : List β) (n : ℕ), (∀ i, i < l.length → cond (n + i) = true) →
      ((l.enumFrom n).map (fun e => if cond e.1 then f e.2 else e.2)) = l.map f := by
  intro l
  induction l with
  | nil => intro n _; rfl
  | cons x rest ih =>
    intro n h
    have h0 : cond n = true := by
      have := h 0 (by simp)
      simpa using this
    simp only [List.enumFrom_cons, List.map_cons, h0, if_pos]
    rw [ih (n + 1)]
    intro i hi
    have := h (i + 1) (by simpa using Nat.succ_lt_succ hi)
    rwa [show n + (i + 1) = n + 1 + i by omega] at this

/-- A full-canvas `fill_rect` over-blends the source onto every pixel. -/
lemma fill_rect_full (pm : Pixmap) (src : QColor)
    (h : pm.pixels.length = pm.width * pm.height) :
    (pm.fill_rect (overlay_rect pm.width pm.height) src).pixels =
      pm.pixels.map (over_blend src) := by
  dsimp only [Pixmap.fill_rect, List.enum]
  exact map_enumFrom_ite (over_blend src)
    (fun i => pixel_in_rect i pm.width (overlay_rect pm.width pm.height))
    pm.pixels 0
    (fun i hi => by simpa using pixel_in_overlay_rect pm.width pm.height i (h ▸ hi))

/-- What a successful canvas build produces: the background's exact
dimensions, and every source pixel copied verbatim then over-blended with
the fixed black alpha-50/255 overlay. -/
lemma build_canvas_ok (img : Image) (pm : Pixmap)
    (h : build_canvas img = Outcome.ok pm) :
    pm.width = img.width ∧ pm.height = img.height ∧
    pm.pixels = img.pixels.map (fun p => over_blend overlay_src (stored_pixel p)) := by
  dsimp only [build_canvas] at h
  rw [Pixmap.new] at h
  by_cases hz : img.width = 0 ∨ img.height = 0
  · rw [if_pos hz] at h; cases h
  · rw [if_neg hz] at h
    cases hc : copy_pixels img.pixels with
    | none => rw [hc] at h; cases h
    | some px =>
      rw [hc] at h
      simp only [Outcome.ok.injEq] at h
      have hpx : px = img.pixels.map stored_pixel := copy_pixels_some img.pixels px hc
      have hlen : px.length = img.width * img.height := by
        rw [hpx, List.length_map, img.hsize]
      subst h
      refine ⟨rfl, rfl, ?_⟩
      have := fill_rect_full (Pixmap.mk img.width img.height px) overlay_src hlen
      rw [this, hpx, List.map_map]
      rfl

/-- Concrete evaluation of the canvas build on a 1×1 background whose pixel
passes the premultiplication check. -/
lemma build_canvas_one_pixel (p : RGBA8) (hp : p.r ≤ p.a ∧ p.g ≤ p.a ∧ p.b ≤ p.a) :
    build_canvas ⟨1, 1, [p], rfl⟩ =
      Outcome.ok (Pixmap.mk 1 1 [over_blend overlay_src (stored_pixel p)]) := by
  have h1 : Pixmap.new 1 1 = some (Pixmap.mk 1 1 (List.replicate 1 ⟨0, 0, 0, 0⟩)) := by
    rw [Pixmap.new, if_neg (by norm_num)]
  have h2 : copy_pixels [p] = some [stored_pixel p] := by
    dsimp only [copy_pixels, premultiplied_from_rgba]
    rw [if_pos hp]
    rfl
  have h3 : (Pixmap.mk 1 1 [stored_pixel p]).fill_rect (overlay_rect 1 1) overlay_src =
      Pixmap.mk 1 1 [over_blend overlay_src (stored_pixel p)] := by
    have h4 := fill_rect_full (Pixmap.mk 1 1 [stored_pixel p]) overlay_src (by simp)
    dsimp only [Pixmap.fill_rect] at h4 ⊢
    rw [h4]
    rfl
  dsimp only [build_canvas]
  rw [h1, h2]
  dsimp only
  rw [← h3]

/-- C5 (amended): a successful canvas build has exactly `width × height`
pixels, but the overlay scales every premultiplied RGB channel by `205/255`
(RGB is *not* unchanged) while the alpha becomes `50/255 + a·205/255`. -/
theorem wallpaper_C5_canvas_pixels (img : Image) (pm : Pixmap)
    (h : build_canvas img = Outcome.ok pm) :
    pm.pixels.length = img.width * img.height ∧
    pm.pixels = img.pixels.map (fun p =>
      QColor.mk ((p.r : ℚ) / 255 * (205 / 255)) ((p.g : ℚ) / 255 * (205 / 255))
        ((p.b : ℚ) / 255 * (205 / 255)) (50 / 255 + (p.a : ℚ) / 255 * (205 / 255))) := by
  obtain ⟨hw, hh, hpx⟩ := build_canvas_ok img pm h
  have hfun : (fun p => over_blend overlay_src (stored_pixel p)) =
      (fun p : RGBA8 =>
        QColor.mk ((p.r : ℚ) / 255 * (205 / 255)) ((p.g : ℚ) / 255 * (205 / 255))
          ((p.b : ℚ) / 255 * (205 / 255)) (50 / 255 + (p.a : ℚ) / 255 * (205 / 255))) := by
    funext p
    dsimp only [over_blend, overlay_src, stored_pixel]
    simp only [QColor.mk.injEq]
    refine ⟨by ring_nf, by ring_nf, by ring_nf, by ring_nf⟩
  constructor
  · rw [hpx, List.length_map, img.hsize]
  · rw [hpx, hfun]

/-- Witness for C5 at the concrete 1×1 transparent-black background. -/
theorem wallpaper_C5_canvas_pixels_witness :
    (Pixmap.mk 1 1 [over_blend overlay_src (stored_pixel ⟨0, 0, 0, 0⟩)]).pixels.length =
      black_image.width * black_image.height ∧
    (Pixmap.mk 1 1 [over_blend overlay_src (stored_pixel ⟨0, 0, 0, 0⟩)]).pixels =
      black_image.pixels.map (fun p =>
        QColor.mk ((p.r : ℚ) / 255 * (205 / 255)) ((p.g : ℚ) / 255 * (205 / 255))
          ((p.b : ℚ) / 255 * (205 / 255)) (50 / 255 + (p.a : ℚ) / 255 * (205 / 255))) :=
  wallpaper_C5_canvas_pixels black_image _
    (build_canvas_one_pixel ⟨0, 0, 0, 0⟩ (by norm_num))

/-- Counterexample to C5 as stated: on an opaque white background the canvas
pixel's red channel is `205/255`, not the source's (normalised) `255/255` —
the overlay changes the RGB channels, not only alpha. -/
theorem wallpaper_C5_rgb_changed :
    build_canvas white_image =
      Outcome.ok (Pixmap.mk 1 1 [over_blend overlay_src (stored_pixel ⟨255, 255, 255, 255⟩)]) ∧
    (Pixmap.mk 1 1 [over_blend overlay_src (stored_pixel ⟨255, 255, 255, 255⟩)]).pixels.map
        QColor.r ≠
      (white_image.pixels.map stored_pixel).map QColor.r := by
  refine ⟨build_canvas_one_pixel ⟨255, 255, 255, 255⟩ (by norm_num), ?_⟩
  dsimp only [over_blend, overlay_src, stored_pixel, white_image]
  norm_num [stored_pixel]

/-- C6: the darkening overlay covers every pixel of the canvas, is the
source-over blend of black with alpha `50/255`, is what every successful
canvas build applies to every copied pixel, and is applied regardless of
`is_dark_mode` (with no cards, the whole render output is independent of the
flag and equals the Canvas-Builder-only output). -/
theorem wallpaper_C6_overlay :
    (∀ (w h i : ℕ), i < w * h → pixel_in_rect i w (overlay_rect w h) = true) ∧
    (∀ c : QColor, over_blend overlay_src c =
      QColor.mk (c.r * (205 / 255)) (c.g * (205 / 255)) (c.b * (205 / 255))
        (50 / 255 + c.a * (205 / 255))) ∧
    (∀ (img : Image) (pm : Pixmap), build_canvas img = Outcome.ok pm →
      pm.pixels = img.pixels.map (fun p => over_blend overlay_src (stored_pixel p))) ∧
    (∀ (decode : Except String Image) (options : RenderOptions)
      (rasterize : DrawOp → Pixmap → Pixmap)
      (encode : Pixmap → Except String (List ℕ)) (d : Bool),
      options.cards = [] →
      render_wallpaper decode { options with is_dark_mode := d } rasterize encode =
        canvas_only decode encode) := by
  refine ⟨pixel_in_overlay_rect, ?_, ?_, ?_⟩
  · intro c
    dsimp only [over_blend, overlay_src]
    simp only [QColor.mk.injEq]
    refine ⟨by ring_nf, by ring_nf, by ring_nf, by ring_nf⟩
  · intro img pm h
    exact (build_canvas_ok img pm h).2.2
  · intro decode options rasterize encode d h
    exact render_wallpaper_no_cards decode _ rasterize encode h

/-- Witness for C6 at concrete inputs. -/
theorem wallpaper_C6_overlay_witness :
    pixel_in_rect 0 1 (overlay_rect 1 1) = true ∧
    over_blend overlay_src (QColor.mk 1 1 1 1) =
      QColor.mk (1 * (205 / 255)) (1 * (205 / 255)) (1 * (205 / 255))
        (50 / 255 + 1 * (205 / 255)) ∧
    (Pixmap.mk 1 1 [over_blend overlay_src (stored_pixel ⟨0, 0, 0, 0⟩)]).pixels =
      black_image.pixels.map (fun p => over_blend overlay_src (stored_pixel p)) ∧
    render_wallpaper (Except.ok black_image)
        { RenderOptions.default with is_dark_mode := true } id_rasterize ok_encode =
      canvas_only (Except.ok black_image) ok_encode :=
  ⟨wallpaper_C6_overlay.1 1 1 0 (by norm_num),
   wallpaper_C6_overlay.2.1 ⟨1, 1, 1, 1⟩,
   wallpaper_C6_overlay.2.2.1 black_image _
     (build_canvas_one_pixel ⟨0, 0, 0, 0⟩ (by norm_num)),
   wallpaper_C6_overlay.2.2.2 (Except.ok black_image) RenderOptions.default
     id_rasterize ok_encode true rfl⟩

/-- C10: each failure mode — background decode failure, pixel-buffer
allocation failure, PNG encode failure — propagates to the caller as a
descriptive `Err` value with no retry, and a failing render never returns
image bytes. -/
theorem wallpaper_C10_error_propagation :
    (∀ (e : String) (options : RenderOptions) (rasterize : DrawOp → Pixmap → Pixmap)
      (encode : Pixmap → Except String (List ℕ)),
      render_wallpaper (Except.error e) options rasterize encode =
        Outcome.err ("Failed to load background: " ++ e)) ∧
    (∀ (img : Image) (options : RenderOptions) (rasterize : DrawOp → Pixmap → Pixmap)
      (encode : Pixmap → Except String (List ℕ)),
      img.width = 0 ∨ img.height = 0 →
      render_wallpaper (Except.ok img) options rasterize encode =
        Outcome.err "Failed to create pixmap") ∧
    (∀ (img : Image) (options : RenderOptions) (rasterize : DrawOp → Pixmap → Pixmap)
      (m : String) (pm : Pixmap),
      build_canvas img = Outcome.ok pm →
      render_wallpaper (Except.ok img) options rasterize (fun _ => Except.error m) =
        Outcome.err ("Failed to encode PNG: " ++ m)) ∧
    (∀ (decode : Except String Image) (options : RenderOptions)
      (rasterize : DrawOp → Pixmap → Pixmap) (m : String) (bytes : List ℕ),
      render_wallpaper decode options rasterize (fun _ => Except.error m) ≠
        Outcome.ok bytes) := by
  refine ⟨fun e options rasterize encode => rfl, ?_, ?_, ?_⟩
  · intro img options rasterize encode h
    dsimp only [render_wallpaper, build_canvas]
    rw [Pixmap.new, if_pos h]
  · intro img options rasterize m pm h
    dsimp only [render_wallpaper]
    rw [h]
  · intro decode options rasterize m bytes hcontra
    cases decode with
    | error e => exact Outcome.noConfusion hcontra
    | ok img =>
      dsimp only [render_wallpaper] at hcontra
      cases hb : build_canvas img with
      | ok pm => rw [hb] at hcontra; exact Outcome.noConfusion hcontra
      | err mm => rw [hb] at hcontra; exact Outcome.noConfusion hcontra
      | panicked => rw [hb] at hcontra; exact Outcome.noConfusion hcontra

/-- Witness for C10 at concrete failures of each kind. -/
theorem wallpaper_C10_error_propagation_witness :
    render_wallpaper (Except.error "no such file") RenderOptions.default
        id_rasterize ok_encode =
      Outcome.err ("Failed to load background: " ++ "no such file") ∧
    render_wallpaper (Except.ok zero_image) RenderOptions.default
        id_rasterize ok_encode =
      Outcome.err "Failed to create pixmap" ∧
    render_wallpaper (Except.ok black_image) RenderOptions.default
        id_rasterize (fun _ => Except.error "out of memory") =
      Outcome.err ("Failed to encode PNG: " ++ "out of memory") ∧
    render_wallpaper (Except.ok black_image) RenderOptions.default
        id_rasterize (fun _ => Except.error "out of memory") ≠
      Outcome.ok [] :=
  ⟨wallpaper_C10_error_propagation.1 "no such file" RenderOptions.default
      id_rasterize ok_encode,
   wallpaper_C10_error_propagation.2.1 zero_image RenderOptions.default
      id_rasterize ok_encode (Or.inl rfl),
   wallpaper_C10_error_propagation.2.2.1 black_image RenderOptions.default
      id_rasterize "out of memory" _
      (build_canvas_one_pixel ⟨0, 0, 0, 0⟩ (by norm_num)),
   wallpaper_C10_error_propagation.2.2.2 (Except.ok black_image)
      RenderOptions.default id_rasterize "out of memory" []⟩

/-- Truncating the card list to its first four entries does not change the
final render output either: cards beyond the fourth have no effect at all. -/
lemma render_wallpaper_take4 (decode : Except String Image)
    (options : RenderOptions) (rasterize : DrawOp → Pixmap → Pixmap)
    (encode : Pixmap → Except String (List ℕ)) :
    render_wallpaper decode { options with cards := options.cards.take 4 }
        rasterize encode =
      render_wallpaper decode options rasterize encode := by
  cases decode with
  | error e => rfl
  | ok background =>
    dsimp only [render_wallpaper]
    cases build_canvas background with
    | err m => rfl
    | panicked => rfl
    | ok pm =>
      have hempty : ({ options with cards := options.cards.take 4 } :
          RenderOptions).cards.isEmpty = options.cards.isEmpty := by
        cases options.cards <;> rfl
      dsimp only
      rw [hempty, render_cards_take4]

/-- C3: exactly `min N 4` rounded-rectangle fills are drawn, one for each of
the first `min N 4` cards in input order; truncating the card list to its
first four entries changes neither the issued draw calls nor the final
render output. -/
theorem wallpaper_C3_fill_cap (options : RenderOptions) (width height : ℚ) :
    ((render_cards options width height).filterMap fill_of).length =
        min options.cards.length 4 ∧
    (render_cards options width height).filterMap fill_of =
      (layout_cards options.position (options.card_width : ℚ)
        (options.cards.take 4)
        (start_pos options.position (options.card_width : ℚ) width height).2).map
        (fun e => ((start_pos options.position (options.card_width : ℚ) width height).1,
          e.2.1, (options.card_width : ℚ), e.2.2, 16, card_fill_color options)) ∧
    render_cards {options with cards := options.cards.take 4} width height =
      render_cards options width height ∧
    (∀ (decode : Except String Image) (rasterize : DrawOp → Pixmap → Pixmap)
      (encode : Pixmap → Except String (List ℕ)),
      render_wallpaper decode { options with cards := options.cards.take 4 }
          rasterize encode =
        render_wallpaper decode options rasterize encode) := by
  refine ⟨?_, render_cards_fills options width height,
    render_cards_take4 options width height,
    fun decode rasterize encode =>
      render_wallpaper_take4 decode options rasterize encode⟩
  rw [render_cards_fills options width height]
  rw [List.length_map, layout_cards_length, List.length_take]
  exact Nat.min_comm 4 options.cards.length
